import Mathlib

/-!
Shallow embedding of `src/ssh_task_runner.py` (SSHTaskRunner) and proofs of the
specification claims about it.

The embedded core consists of:
- `Command` with its `build` method;
- a `Transport` abstraction standing for the paramiko SSH session: each dispatch
  (numbered by how many `exec_command` calls happened before it) either returns a
  triple of stdout, stderr and exit status, or fails with a transport-level error
  carrying a message (any exception caught by `_run_command`);
- `run_command`, the embedding of `SSHTaskRunner._run_command`;
- `log_result`, the embedding of `SSHTaskRunner._log_result`, producing the list
  of logger calls as structured events (severity plus message shape);
- `execute`, the embedding of `SSHTaskRunner.execute`, producing the full trace of
  observable events (transport dispatches, logger calls, session close), the list
  of results that were reported via `_log_result`, and the terminal state of the
  run (`completed` when the loop finishes, `aborted` on the early return after a
  nonzero exit status, `failed` when the ValueError for a malformed sequence entry
  propagates to the caller).
-/

/-- Python truthiness-relevant whitespace: the characters removed by `str.strip()`. -/
def isPySpace (c : Char) : Bool :=
  c = ' ' || c = '\t' || c = '\n' || c = '\r' || c = '\x0b' || c = '\x0c'

/-- Embedding of Python `str.strip()`: remove leading and trailing whitespace. -/
def pyStrip (s : String) : String :=
  String.mk (((s.data.dropWhile isPySpace).reverse.dropWhile isPySpace).reverse)

/-- Embedding of the `Command` class: `command` is the shell text (required),
`description` defaults to `""` in the Python constructor, `directory` defaults to
`None`. -/
structure Command where
  command : String
  description : String := ""
  directory : Option String := none
deriving DecidableEq, Repr

/-- Embedding of `Command.build`: Python tests `if self.directory:`, which is a
truthiness test, so both `None` and the empty string fall through to returning
`self.command` unchanged. -/
def Command.build (c : Command) : String :=
  match c.directory with
  | some d => if d = "" then c.command else "cd " ++ d ++ " && " ++ c.command
  | none => c.command

/-- Outcome of one dispatch to the transport: either the remote command ran and the
triple (stdout, stderr, exit status) came back, or an exception was raised at the
transport layer with message `msg` (this is what `str(e)` yields in the handler). -/
inductive TransportOutcome where
  | ok (stdout stderr : String) (exit_status : Int)
  | err (msg : String)
deriving DecidableEq, Repr

/-- A transport: the behaviour of the SSH session, as a function of the dispatch
number (how many `exec_command` calls preceded this one) and the command string. -/
abbrev Transport := Nat → String → TransportOutcome

/-- Embedding of the result dict produced by `_run_command` (all fields are filled
in before the dict is returned on either path). -/
structure ExecutionResult where
  description : String
  command : String
  stdout : String
  stderr : String
  exit_status : Int
deriving DecidableEq, Repr

/-- Embedding of `SSHTaskRunner._run_command`. `k` is the dispatch number. On the
success path stdout and stderr are `.strip()`-ped before being stored; on the
exception path stdout is `""`, stderr is the exception message, exit status is -1.
The description is `command.description or command.command` (Python `or`, i.e. the
description when it is nonempty, the command text otherwise). -/
def run_command (t : Transport) (k : Nat) (c : Command) : ExecutionResult :=
  let full_cmd := c.build
  let descr := if c.description = "" then c.command else c.description
  match t k full_cmd with
  | .ok out err status =>
      { description := descr, command := full_cmd,
        stdout := pyStrip out, stderr := pyStrip err, exit_status := status }
  | .err msg =>
      { description := descr, command := full_cmd,
        stdout := "", stderr := msg, exit_status := -1 }

/-- Severity of a logger call (`logger.info` or `logger.error`). -/
inductive Severity where
  | info
  | error
deriving DecidableEq, Repr

/-- The shapes of the log messages emitted by the runner, one constructor per
logger call site, carrying the data interpolated into the message. -/
inductive LogMsg where
  | commandDesc (d : String)
  | exitStatusLine (s : Int)
  | stdoutContent (s : String)
  | stderrInformational (s : String)
  | stderrContent (s : String)
  | abortNotice
  | allCompleted
  | unexpectedError (m : String)
  | connectionEstablished
  | connectionClosed
deriving DecidableEq, Repr

/-- A logger call: severity plus message. -/
structure LogEvent where
  severity : Severity
  msg : LogMsg
deriving DecidableEq, Repr

/-- Embedding of `SSHTaskRunner._log_result`: the list of logger calls made for one
result. The stdout and stderr blocks are emitted only when the stripped string is
nonempty; stderr goes to `logger.info` when the exit status is 0 and to
`logger.error` otherwise. -/
def log_result (r : ExecutionResult) : List LogEvent :=
  [⟨.info, .commandDesc r.description⟩, ⟨.info, .exitStatusLine r.exit_status⟩]
  ++ (if pyStrip r.stdout = "" then [] else [⟨.info, .stdoutContent (pyStrip r.stdout)⟩])
  ++ (if pyStrip r.stderr = "" then []
      else if r.exit_status = 0 then [⟨.info, .stderrInformational (pyStrip r.stderr)⟩]
      else [⟨.error, .stderrContent (pyStrip r.stderr)⟩])

/-- An entry of the sequence passed to `execute`: either an actual `Command`, or a
malformed entry (anything failing the `isinstance(step, Command)` test). -/
inductive Step where
  | cmd (c : Command)
  | bad
deriving DecidableEq, Repr

/-- Terminal state of a run, per the spec state machine: `completed` when the loop
finishes all commands, `aborted` on the early return after a nonzero exit status,
`failed msg` when an exception with message `msg` propagates to the caller. -/
inductive Terminal where
  | completed
  | aborted
  | failed (msg : String)
deriving DecidableEq, Repr

/-- Observable event of a run: a dispatch of a command string to the transport
(`ssh.exec_command`), a logger call, or the close of the session (`ssh.close()`). -/
inductive Event where
  | dispatch (cmd : String)
  | log (e : LogEvent)
  | close
deriving DecidableEq, Repr

/-- Output of a run: the event trace, the list of results reported via
`_log_result`, and the terminal state. -/
structure RunOut where
  trace : List Event
  results : List ExecutionResult
  terminal : Terminal
deriving DecidableEq, Repr

/-- Embedding of the `for step in sequence:` loop body of `SSHTaskRunner.execute`.
`k` counts the dispatches made so far. A `Command` entry is run and its result
logged; on nonzero exit status the loop returns early (abort). A non-`Command`
entry raises `ValueError("Invalid step in sequence.")`. When the loop finishes,
the success message is logged. -/
def execLoop (t : Transport) (k : Nat) : List Step → RunOut
  | [] => { trace := [.log ⟨.info, .allCompleted⟩], results := [], terminal := .completed }
  | Step.bad :: _ =>
      { trace := [], results := [], terminal := .failed "Invalid step in sequence." }
  | Step.cmd c :: rest =>
      let r := run_command t k c
      let evs := Event.dispatch c.build :: (log_result r).map Event.log
      if r.exit_status = 0 then
        let o := execLoop t (k + 1) rest
        { trace := evs ++ o.trace, results := r :: o.results, terminal := o.terminal }
      else
        { trace := evs ++ [.log ⟨.error, .abortNotice⟩], results := [r], terminal := .aborted }

/-- Embedding of `SSHTaskRunner.execute`: run the loop; when an exception escapes
the loop, the `except` clause logs the unexpected-error message and re-raises; in
all cases the `finally` clause closes the session exactly once and logs that the
connection was closed, just before control returns to the caller. -/
def execute (t : Transport) (steps : List Step) : RunOut :=
  let o := execLoop t 0 steps
  let extra : List Event :=
    match o.terminal with
    | .failed m => [.log ⟨.error, .unexpectedError m⟩]
    | _ => []
  { o with trace := o.trace ++ extra ++ [.close, .log ⟨.info, .connectionClosed⟩] }

/-- What the caller of `execute` observes as a return: `none` when `execute`
returns normally (its Python annotation is `-> None`), `some m` when an exception
with message `m` propagates. -/
def callerView (o : RunOut) : Option String :=
  match o.terminal with
  | .failed m => some m
  | _ => none

/-- The command strings dispatched to the transport, in order, read off a trace. -/
def dispatchedOf (tr : List Event) : List String :=
  tr.filterMap fun e =>
    match e with
    | .dispatch s => some s
    | _ => none

/-- The command strings dispatched to the transport during a run. -/
def dispatched (o : RunOut) : List String :=
  dispatchedOf o.trace

/-- How many times the session was closed during a run. -/
def closeCount (o : RunOut) : Nat :=
  (o.trace.filter fun e => e = Event.close).length

/-- The results of running a list of commands in order, the first with dispatch
number `k`: the reference sequence of per-command results for a run in which the
listed commands are all reached. -/
def runResults (t : Transport) (k : Nat) : List Command → List ExecutionResult
  | [] => []
  | c :: rest => run_command t k c :: runResults t (k + 1) rest

/-- The command carried by a sequence entry, when it is one. -/
def stepCmd : Step → Option Command
  | Step.cmd c => some c
  | Step.bad => none

/-- Whether a log message is one of the two stderr blocks. -/
def isStderrMsg : LogMsg → Bool
  | .stderrInformational _ => true
  | .stderrContent _ => true
  | _ => false

/-- The loop reaches a malformed entry at position `j`: entry `j` is not a
`Command`, and every earlier entry is a `Command` whose result (at its dispatch
number) has exit status 0. -/
def ReachesBadAt (t : Transport) (k : Nat) (steps : List Step) (j : Nat) : Prop :=
  steps[j]? = some Step.bad ∧
    ∀ i, i < j → ∃ c, steps[i]? = some (Step.cmd c) ∧ (run_command t (k + i) c).exit_status = 0

/-! ### Helper lemmas -/

theorem pyStrip_empty : pyStrip "" = "" := rfl

@[simp]
theorem dispatchedOf_nil : dispatchedOf [] = [] := rfl

@[simp]
theorem dispatchedOf_cons_dispatch (s : String) (tr : List Event) :
    dispatchedOf (Event.dispatch s :: tr) = s :: dispatchedOf tr := by
  simp [dispatchedOf]

@[simp]
theorem dispatchedOf_cons_log (e : LogEvent) (tr : List Event) :
    dispatchedOf (Event.log e :: tr) = dispatchedOf tr := by
  simp [dispatchedOf]

@[simp]
theorem dispatchedOf_cons_close (tr : List Event) :
    dispatchedOf (Event.close :: tr) = dispatchedOf tr := by
  simp [dispatchedOf]

@[simp]
theorem dispatchedOf_append (a b : List Event) :
    dispatchedOf (a ++ b) = dispatchedOf a ++ dispatchedOf b := by
  simp [dispatchedOf]

@[simp]
theorem dispatchedOf_logmap (l : List LogEvent) :
    dispatchedOf (l.map Event.log) = [] := by
  induction l with
  | nil => rfl
  | cons e rest ih => simp [ih]

theorem runResults_length (t : Transport) : ∀ (cs : List Command) (k : Nat),
    (runResults t k cs).length = cs.length := by
  intro cs
  induction cs with
  | nil => intro k; rfl
  | cons c rest ih => intro k; simp [runResults, ih]

theorem execute_terminal (t : Transport) (steps : List Step) :
    (execute t steps).terminal = (execLoop t 0 steps).terminal := rfl

theorem execute_results (t : Transport) (steps : List Step) :
    (execute t steps).results = (execLoop t 0 steps).results := rfl

theorem dispatched_execute (t : Transport) (steps : List Step) :
    dispatched (execute t steps) = dispatchedOf (execLoop t 0 steps).trace := by
  unfold dispatched execute
  cases h : (execLoop t 0 steps).terminal <;> simp [h]

theorem execLoop_close_not_mem (t : Transport) : ∀ (steps : List Step) (k : Nat),
    Event.close ∉ (execLoop t k steps).trace := by
  intro steps
  induction steps with
  | nil => intro k; simp [execLoop]
  | cons s rest ih =>
    intro k
    cases s with
    | bad => simp [execLoop]
    | cmd c =>
      by_cases h0 : (run_command t k c).exit_status = 0 <;>
        simp [execLoop, h0, ih (k + 1)]

theorem execute_trace_shape (t : Transport) (steps : List Step) :
    ∃ evs, (execute t steps).trace
        = evs ++ [Event.close, Event.log ⟨Severity.info, LogMsg.connectionClosed⟩]
      ∧ Event.close ∉ evs := by
  unfold execute
  cases h : (execLoop t 0 steps).terminal
  case completed =>
    refine ⟨(execLoop t 0 steps).trace ++ [], by simp [h], ?_⟩
    simp [execLoop_close_not_mem t steps 0]
  case aborted =>
    refine ⟨(execLoop t 0 steps).trace ++ [], by simp [h], ?_⟩
    simp [execLoop_close_not_mem t steps 0]
  case failed m =>
    refine ⟨(execLoop t 0 steps).trace
        ++ [Event.log ⟨Severity.error, LogMsg.unexpectedError m⟩], by simp [h], ?_⟩
    simp [execLoop_close_not_mem t steps 0]

theorem execute_closeCount (t : Transport) (steps : List Step) :
    closeCount (execute t steps) = 1 := by
  obtain ⟨evs, htr, hmem⟩ := execute_trace_shape t steps
  unfold closeCount
  rw [htr]
  rw [List.filter_append]
  have hnil : evs.filter (fun e => e = Event.close) = [] := by
    rw [List.filter_eq_nil_iff]
    intro a ha
    simp only [decide_eq_true_eq]
    intro hEq
    exact hmem (hEq ▸ ha)
  rw [hnil]
  simp

theorem execLoop_all_zero (t : Transport) : ∀ (cs : List Command) (k : Nat),
    (∀ r ∈ runResults t k cs, r.exit_status = 0) →
    (execLoop t k (cs.map Step.cmd)).terminal = Terminal.completed
    ∧ (execLoop t k (cs.map Step.cmd)).results = runResults t k cs
    ∧ dispatchedOf (execLoop t k (cs.map Step.cmd)).trace = cs.map Command.build := by
  intro cs
  induction cs with
  | nil =>
    intro k _
    refine ⟨rfl, rfl, rfl⟩
  | cons c rest ih =>
    intro k h
    have h0 : (run_command t k c).exit_status = 0 := h _ (by simp [runResults])
    have hrest : ∀ r ∈ runResults t (k + 1) rest, r.exit_status = 0 := by
      intro r hr
      exact h r (by simp [runResults, hr])
    obtain ⟨ht, hres, hd⟩ := ih (k + 1) hrest
    simp only [List.map_cons, execLoop, h0, if_pos]
    refine ⟨ht, ?_, ?_⟩
    · simp [runResults, hres]
    · simp [dispatchedOf_append, hd]

theorem execLoop_abort (t : Transport) : ∀ (cs : List Command) (k i : Nat) (cf : Command),
    (∀ r ∈ runResults t k (cs.take i), r.exit_status = 0) →
    cs[i]? = some cf →
    (run_command t (k + i) cf).exit_status ≠ 0 →
    (execLoop t k (cs.map Step.cmd)).terminal = Terminal.aborted
    ∧ (execLoop t k (cs.map Step.cmd)).results
        = runResults t k (cs.take i) ++ [run_command t (k + i) cf]
    ∧ dispatchedOf (execLoop t k (cs.map Step.cmd)).trace
        = (cs.take i).map Command.build ++ [cf.build] := by
  intro cs
  induction cs with
  | nil =>
    intro k i cf _ hi _
    simp at hi
  | cons c rest ih =>
    intro k i cf hprev hi hfail
    cases i with
    | zero =>
      have hc : c = cf := by simpa using hi
      subst hc
      have hne : ¬ (run_command t k c).exit_status = 0 := by simpa using hfail
      simp only [List.map_cons, execLoop, hne, if_neg, if_false]
      refine ⟨by trivial, ?_, ?_⟩
      · simp [runResults]
      · simp
    | succ j =>
      have h0 : (run_command t k c).exit_status = 0 := by
        refine hprev _ ?_
        simp [runResults]
      have hrest : ∀ r ∈ runResults t (k + 1) (rest.take j), r.exit_status = 0 := by
        intro r hr
        refine hprev r ?_
        simp [runResults, hr]
      have hj : rest[j]? = some cf := by simpa using hi
      have hfail' : (run_command t (k + 1 + j) cf).exit_status ≠ 0 := by
        have heq : k + 1 + j = k + (j + 1) := by omega
        rw [heq]
        exact hfail
      obtain ⟨ht, hres, hd⟩ := ih (k + 1) j cf hrest hj hfail'
      simp only [List.map_cons, execLoop, h0, if_pos]
      have heq : k + 1 + j = k + (j + 1) := by omega
      refine ⟨ht, ?_, ?_⟩
      · simp only [List.take_succ_cons, runResults, List.cons_append]
        rw [hres, heq]
      · simp only [List.take_succ_cons, List.map_cons, List.cons_append]
        simp only [dispatchedOf_cons_dispatch, dispatchedOf_append, dispatchedOf_logmap,
          List.nil_append, hd]

theorem reachesBad_cons_cmd (t : Transport) (k : Nat) (c : Command) (rest : List Step) (j : Nat) :
    ReachesBadAt t k (Step.cmd c :: rest) (j + 1) ↔
      ((run_command t k c).exit_status = 0 ∧ ReachesBadAt t (k + 1) rest j) := by
  constructor
  · rintro ⟨hbad, hall⟩
    have hc : (run_command t k c).exit_status = 0 := by
      obtain ⟨c0, hc0, h0⟩ := hall 0 (Nat.succ_pos j)
      simp only [List.getElem?_cons_zero, Option.some.injEq, Step.cmd.injEq] at hc0
      subst hc0
      simpa using h0
    refine ⟨hc, by simpa using hbad, ?_⟩
    intro i hi
    obtain ⟨c0, hc0, h0⟩ := hall (i + 1) (Nat.succ_lt_succ hi)
    refine ⟨c0, by simpa using hc0, ?_⟩
    have heq : k + (i + 1) = k + 1 + i := by omega
    rw [heq] at h0
    exact h0
  · rintro ⟨hc, hbad, hall⟩
    refine ⟨by simpa using hbad, ?_⟩
    intro i hi
    cases i with
    | zero => exact ⟨c, by simp, by simpa using hc⟩
    | succ n =>
      obtain ⟨c0, hc0, h0⟩ := hall n (by omega)
      refine ⟨c0, by simpa using hc0, ?_⟩
      have heq : k + (n + 1) = k + 1 + n := by omega
      rw [heq]
      exact h0

theorem execLoop_failed_iff (t : Transport) : ∀ (steps : List Step) (k : Nat),
    (∃ m, (execLoop t k steps).terminal = Terminal.failed m) ↔
      ∃ j, ReachesBadAt t k steps j := by
  intro steps
  induction steps with
  | nil =>
    intro k
    constructor
    · rintro ⟨m, hm⟩
      simp [execLoop] at hm
    · rintro ⟨j, hbad, _⟩
      simp at hbad
  | cons s rest ih =>
    intro k
    cases s with
    | bad =>
      constructor
      · intro _
        exact ⟨0, by simp, fun i hi => absurd hi (Nat.not_lt_zero i)⟩
      · intro _
        exact ⟨"Invalid step in sequence.", rfl⟩
    | cmd c =>
      by_cases h0 : (run_command t k c).exit_status = 0
      · have hterm : (execLoop t k (Step.cmd c :: rest)).terminal
            = (execLoop t (k + 1) rest).terminal := by
          simp [execLoop, h0]
        constructor
        · rintro ⟨m, hm⟩
          rw [hterm] at hm
          obtain ⟨j, hj⟩ := (ih (k + 1)).mp ⟨m, hm⟩
          exact ⟨j + 1, (reachesBad_cons_cmd t k c rest j).mpr ⟨h0, hj⟩⟩
        · rintro ⟨j, hj⟩
          cases j with
          | zero =>
            obtain ⟨hbad, _⟩ := hj
            simp at hbad
          | succ n =>
            obtain ⟨_, hn⟩ := (reachesBad_cons_cmd t k c rest n).mp hj
            obtain ⟨m, hm⟩ := (ih (k + 1)).mpr ⟨n, hn⟩
            exact ⟨m, by rw [hterm]; exact hm⟩
      · have hterm : (execLoop t k (Step.cmd c :: rest)).terminal = Terminal.aborted := by
          simp [execLoop, h0]
        constructor
        · rintro ⟨m, hm⟩
          rw [hterm] at hm
          simp at hm
        · rintro ⟨j, hj⟩
          cases j with
          | zero =>
            obtain ⟨hbad, _⟩ := hj
            simp at hbad
          | succ n =>
            obtain ⟨hc, _⟩ := (reachesBad_cons_cmd t k c rest n).mp hj
            exact absurd hc h0

theorem execLoop_failed_msg (t : Transport) : ∀ (steps : List Step) (k : Nat) (m : String),
    (execLoop t k steps).terminal = Terminal.failed m → m = "Invalid step in sequence." := by
  intro steps
  induction steps with
  | nil =>
    intro k m hm
    simp [execLoop] at hm
  | cons s rest ih =>
    intro k m hm
    cases s with
    | bad =>
      simp only [execLoop, Terminal.failed.injEq] at hm
      exact hm.symm
    | cmd c =>
      by_cases h0 : (run_command t k c).exit_status = 0
      · have hterm : (execLoop t k (Step.cmd c :: rest)).terminal
            = (execLoop t (k + 1) rest).terminal := by
          simp [execLoop, h0]
        rw [hterm] at hm
        exact ih (k + 1) m hm
      · have hterm : (execLoop t k (Step.cmd c :: rest)).terminal = Terminal.aborted := by
          simp [execLoop, h0]
        rw [hterm] at hm
        simp at hm

theorem execLoop_reach_bad (t : Transport) : ∀ (steps : List Step) (k j : Nat),
    ReachesBadAt t k steps j →
    (execLoop t k steps).terminal = Terminal.failed "Invalid step in sequence."
    ∧ (execLoop t k steps).results = runResults t k ((steps.take j).filterMap stepCmd)
    ∧ dispatchedOf (execLoop t k steps).trace
        = ((steps.take j).filterMap stepCmd).map Command.build := by
  intro steps
  induction steps with
  | nil =>
    intro k j h
    obtain ⟨hbad, _⟩ := h
    simp at hbad
  | cons s rest ih =>
    intro k j h
    cases s with
    | bad =>
      cases j with
      | zero => exact ⟨rfl, rfl, rfl⟩
      | succ n =>
        obtain ⟨_, hall⟩ := h
        obtain ⟨c0, hc0, _⟩ := hall 0 (Nat.succ_pos n)
        simp at hc0
    | cmd c =>
      cases j with
      | zero =>
        obtain ⟨hbad, _⟩ := h
        simp at hbad
      | succ n =>
        obtain ⟨h0, hn⟩ := (reachesBad_cons_cmd t k c rest n).mp h
        obtain ⟨ht, hres, hd⟩ := ih (k + 1) n hn
        simp only [execLoop, h0, if_pos]
        refine ⟨ht, ?_, ?_⟩
        · simp only [List.take_succ_cons, List.filterMap_cons, stepCmd, runResults]
          simp [runResults, hres]
        · simp only [List.take_succ_cons, List.filterMap_cons, stepCmd]
          simp [hd]

theorem callerView_ne_none_iff (o : RunOut) :
    callerView o ≠ none ↔ ∃ m, o.terminal = Terminal.failed m := by
  cases h : o.terminal <;> simp [callerView, h]

/-! ### Claims -/

/-- C1: for every transport and command list, `execute` runs a strict, non-reordered
prefix: if the commands at positions 0..i-1 all yield exit status 0 and the command
at position i (0-based; the claim counts 1-based, so this is its i+1st command)
yields a nonzero exit status (including the synthesized -1), then that failing
result is reported, the terminal state is `aborted`, exactly i+1 results are
reported in total, and the commands after position i are never dispatched to the
transport: the dispatched strings are exactly the built strings of positions 0..i. -/
theorem C1_abort_on_first_failure (t : Transport) (cs : List Command) (i : Nat) (cf : Command)
    (hprev : ∀ r ∈ runResults t 0 (cs.take i), r.exit_status = 0)
    (hi : cs[i]? = some cf)
    (hfail : (run_command t i cf).exit_status ≠ 0) :
    (execute t (cs.map Step.cmd)).terminal = Terminal.aborted
    ∧ (execute t (cs.map Step.cmd)).results
        = runResults t 0 (cs.take i) ++ [run_command t i cf]
    ∧ run_command t i cf ∈ (execute t (cs.map Step.cmd)).results
    ∧ (execute t (cs.map Step.cmd)).results.length = i + 1
    ∧ dispatched (execute t (cs.map Step.cmd)) = (cs.take i).map Command.build ++ [cf.build] := by
  have hilen : i < cs.length := by
    by_contra hge
    rw [List.getElem?_eq_none (by omega)] at hi
    cases hi
  have hfail0 : (run_command t (0 + i) cf).exit_status ≠ 0 := by
    simpa using hfail
  obtain ⟨ht, hres, hd⟩ := execLoop_abort t cs 0 i cf hprev hi hfail0
  rw [execute_terminal, execute_results, dispatched_execute]
  have hres' : (execLoop t 0 (cs.map Step.cmd)).results
      = runResults t 0 (cs.take i) ++ [run_command t i cf] := by
    simpa using hres
  refine ⟨ht, hres', ?_, ?_, by simpa using hd⟩
  · rw [hres']
    simp
  · rw [hres']
    rw [List.length_append, runResults_length]
    have hmin : min i cs.length = i := Nat.min_eq_left (Nat.le_of_lt hilen)
    simp [List.length_take, hmin]

/-- Witness for C1: with a transport whose first dispatch succeeds and whose second
returns exit status 2, running three commands aborts after exactly two reported
results and only dispatches the first two command strings. -/
theorem C1_abort_on_first_failure_witness :
    (execute (fun k _ => if k = 0 then TransportOutcome.ok "" "" 0 else TransportOutcome.ok "" "e" 2)
        ([Command.mk "cmd1" "" none, Command.mk "cmd2" "" none, Command.mk "cmd3" "" none].map Step.cmd)).terminal
      = Terminal.aborted
    ∧ (execute (fun k _ => if k = 0 then TransportOutcome.ok "" "" 0 else TransportOutcome.ok "" "e" 2)
        ([Command.mk "cmd1" "" none, Command.mk "cmd2" "" none, Command.mk "cmd3" "" none].map Step.cmd)).results.length
      = 1 + 1
    ∧ dispatched (execute (fun k _ => if k = 0 then TransportOutcome.ok "" "" 0 else TransportOutcome.ok "" "e" 2)
        ([Command.mk "cmd1" "" none, Command.mk "cmd2" "" none, Command.mk "cmd3" "" none].map Step.cmd))
      = ([Command.mk "cmd1" "" none, Command.mk "cmd2" "" none, Command.mk "cmd3" "" none].take 1).map Command.build
        ++ [(Command.mk "cmd2" "" none).build] := by
  obtain ⟨h1, _, _, h4, h5⟩ := C1_abort_on_first_failure
      (fun k _ => if k = 0 then TransportOutcome.ok "" "" 0 else TransportOutcome.ok "" "e" 2)
      [Command.mk "cmd1" "" none, Command.mk "cmd2" "" none, Command.mk "cmd3" "" none]
      1 (Command.mk "cmd2" "" none) (by decide) (by decide) (by decide)
  exact ⟨h1, h4, h5⟩

/-- C2: for every transport and command list in which every reached command yields
exit status 0, `execute` terminates in state `completed`, reports one result per
command, and dispatches exactly the built strings of the whole list in order (the
empty list completes with zero dispatches, as an instance). -/
theorem C2_all_success_completes (t : Transport) (cs : List Command)
    (h : ∀ r ∈ runResults t 0 cs, r.exit_status = 0) :
    (execute t (cs.map Step.cmd)).terminal = Terminal.completed
    ∧ (execute t (cs.map Step.cmd)).results = runResults t 0 cs
    ∧ (execute t (cs.map Step.cmd)).results.length = cs.length
    ∧ dispatched (execute t (cs.map Step.cmd)) = cs.map Command.build := by
  obtain ⟨ht, hres, hd⟩ := execLoop_all_zero t cs 0 h
  rw [execute_terminal, execute_results, dispatched_execute]
  exact ⟨ht, hres, by rw [hres, runResults_length], hd⟩

/-- Witness for C2: a transport returning exit status 0 on every dispatch completes
a two-command list with both command strings dispatched in order. -/
theorem C2_all_success_completes_witness :
    (execute (fun _ _ => TransportOutcome.ok "out" "" 0)
        ([Command.mk "ls" "Show files." (some "/home"),
          Command.mk "ls -al" "Show all files." (some "/home")].map Step.cmd)).terminal
      = Terminal.completed
    ∧ dispatched (execute (fun _ _ => TransportOutcome.ok "out" "" 0)
        ([Command.mk "ls" "Show files." (some "/home"),
          Command.mk "ls -al" "Show all files." (some "/home")].map Step.cmd))
      = [Command.mk "ls" "Show files." (some "/home"),
          Command.mk "ls -al" "Show all files." (some "/home")].map Command.build := by
  obtain ⟨h1, _, _, h4⟩ := C2_all_success_completes (fun _ _ => TransportOutcome.ok "out" "" 0)
      [Command.mk "ls" "Show files." (some "/home"),
        Command.mk "ls -al" "Show all files." (some "/home")] (by decide)
  exact ⟨h1, h4⟩

/-- C3 counterexample: a `Command` whose `directory` is set to the empty string is
a command whose directory is set, yet `build()` returns the text unchanged and not
the concatenation the claim prescribes for a set directory (Python's
`if self.directory:` is a truthiness test, so `""` falls through). -/
theorem C3_build_counterexample :
    (Command.mk "ls" "" (some "")).directory = some ""
    ∧ (Command.mk "ls" "" (some "")).build = "ls"
    ∧ (Command.mk "ls" "" (some "")).build ≠ "cd " ++ "" ++ " && " ++ "ls" := by
  decide

/-- C3 (amended): `build()` returns `"cd " + directory + " && " + text` when the
directory is set and nonempty; it returns the text unchanged when the directory is
absent or empty; in particular the two examples of the claim hold. -/
theorem C3_build_concatenation (c : Command) :
    (∀ d, c.directory = some d → d ≠ "" → c.build = "cd " ++ d ++ " && " ++ c.command)
    ∧ ((c.directory = none ∨ c.directory = some "") → c.build = c.command)
    ∧ (Command.mk "ls" "" (some "/home")).build = "cd /home && ls"
    ∧ (Command.mk "ls" "" none).build = "ls" := by
  refine ⟨?_, ?_, by decide, by decide⟩
  · intro d hd hne
    simp [Command.build, hd, hne]
  · rintro (hd | hd) <;> simp [Command.build, hd]

/-- Witness for C3: the amended theorem applied to the command with text `ls` and
directory `/home` yields the concatenated string. -/
theorem C3_build_concatenation_witness :
    (Command.mk "ls" "" (some "/home")).build = "cd " ++ "/home" ++ " && " ++ "ls" :=
  (C3_build_concatenation (Command.mk "ls" "" (some "/home"))).1 "/home" rfl (by decide)

/-- C4 counterexample: when the transport raises an error whose message is the
empty string, the synthesized result has `exit_status = -1` but its stderr equals
that empty message, so the claimed "nonempty stderr" fails (the handler stores
`str(e)` verbatim, which is empty for an exception with an empty message). -/
theorem C4_transport_error_counterexample :
    (run_command (fun _ _ => TransportOutcome.err "") 0 (Command.mk "ls" "" none)).exit_status = -1
    ∧ (run_command (fun _ _ => TransportOutcome.err "") 0 (Command.mk "ls" "" none)).stderr = "" := by
  decide

/-- C4 (amended): for every command whose dispatch raises a transport error, the
sequencer synthesizes (does not re-raise) a result with empty stdout, stderr equal
to the error message (hence nonempty exactly when the message is), and exit status
-1; the result is reported and the run aborts at that command exactly as it would
for a nonzero remote exit code. -/
theorem C4_transport_error_synthesis (t : Transport) (k : Nat) (c : Command) (msg : String)
    (h : t k c.build = TransportOutcome.err msg) :
    (run_command t k c).stdout = ""
    ∧ (run_command t k c).stderr = msg
    ∧ (run_command t k c).exit_status = -1
    ∧ ((run_command t k c).stderr ≠ "" ↔ msg ≠ "")
    ∧ ∀ rest, (execLoop t k (Step.cmd c :: rest)).terminal = Terminal.aborted
        ∧ (execLoop t k (Step.cmd c :: rest)).results = [run_command t k c] := by
  have hr : run_command t k c
      = { description := if c.description = "" then c.command else c.description,
          command := c.build, stdout := "", stderr := msg, exit_status := -1 } := by
    simp only [run_command]
    rw [h]
  have hne : ¬ (run_command t k c).exit_status = 0 := by
    rw [hr]
    simp
  refine ⟨by rw [hr], by rw [hr], by rw [hr], by rw [hr], ?_⟩
  intro rest
  constructor <;> simp [execLoop, hne]

/-- Witness for C4: a transport error with message `Channel closed.` yields a
result with that stderr and exit status -1, and the loop aborts at the command. -/
theorem C4_transport_error_synthesis_witness :
    (run_command (fun _ _ => TransportOutcome.err "Channel closed.") 0 (Command.mk "ls" "" none)).stderr
      = "Channel closed."
    ∧ (run_command (fun _ _ => TransportOutcome.err "Channel closed.") 0 (Command.mk "ls" "" none)).exit_status
      = -1
    ∧ (execLoop (fun _ _ => TransportOutcome.err "Channel closed.") 0
        [Step.cmd (Command.mk "ls" "" none)]).terminal = Terminal.aborted := by
  obtain ⟨_, h2, h3, _, h5⟩ := C4_transport_error_synthesis
      (fun _ _ => TransportOutcome.err "Channel closed.") 0 (Command.mk "ls" "" none)
      "Channel closed." rfl
  exact ⟨h2, h3, (h5 []).1⟩

/-- C5: for every transport and sequence, the owned session is closed exactly once,
and the close is the final session operation of the run: the whole trace is some
close-free prefix followed by the close and the final "connection closed" log line,
regardless of whether the run ends completed, aborted, or failed. -/
theorem C5_session_closed_once (t : Transport) (steps : List Step) :
    closeCount (execute t steps) = 1
    ∧ ∃ evs, (execute t steps).trace
        = evs ++ [Event.close, Event.log ⟨Severity.info, LogMsg.connectionClosed⟩]
      ∧ Event.close ∉ evs :=
  ⟨execute_closeCount t steps, execute_trace_shape t steps⟩

/-- C10: a `Command` constructed with `directory=""` builds to its text unchanged:
the empty directory behaves exactly like an absent one, and no `cd  && ` prefix is
produced. -/
theorem C10_empty_directory_like_absent (text descr : String) :
    (Command.mk text descr (some "")).build = text
    ∧ (Command.mk text descr (some "")).build = (Command.mk text descr none).build := by
  constructor <;> simp [Command.build]

/-- C6 counterexample: a sequence containing a malformed entry after a failing
command does not make `execute` raise: the run aborts at the failing command and
returns normally, so "raises iff the list contains a malformed entry" fails at
this input (the malformed entry is never reached). -/
theorem C6_malformed_unreached_counterexample :
    Step.bad ∈ [Step.cmd (Command.mk "ls" "" none), Step.bad]
    ∧ callerView (execute (fun _ _ => TransportOutcome.ok "" "" 1)
        [Step.cmd (Command.mk "ls" "" none), Step.bad]) = none
    ∧ (execute (fun _ _ => TransportOutcome.ok "" "" 1)
        [Step.cmd (Command.mk "ls" "" none), Step.bad]).terminal = Terminal.aborted := by
  decide

/-- C6 (amended): `execute` raises an error to the caller if and only if the
sequence contains a malformed entry that is reached, i.e. one preceded only by
valid commands that all yield exit status 0; in that case no later entries are
executed (only the commands before the malformed entry are dispatched), the run
ends in `failed`, the session is still closed, and the ValueError is re-raised to
the caller rather than recovered into a result. -/
theorem C6_raise_iff_malformed_reached (t : Transport) (steps : List Step) :
    (callerView (execute t steps) ≠ none ↔ ∃ j, ReachesBadAt t 0 steps j)
    ∧ ∀ j, ReachesBadAt t 0 steps j →
        (execute t steps).terminal = Terminal.failed "Invalid step in sequence."
        ∧ callerView (execute t steps) = some "Invalid step in sequence."
        ∧ dispatched (execute t steps) = ((steps.take j).filterMap stepCmd).map Command.build
        ∧ closeCount (execute t steps) = 1 := by
  constructor
  · rw [callerView_ne_none_iff, execute_terminal]
    exact execLoop_failed_iff t steps 0
  · intro j hj
    obtain ⟨ht, _, hd⟩ := execLoop_reach_bad t steps 0 j hj
    have hterm : (execute t steps).terminal = Terminal.failed "Invalid step in sequence." := by
      rw [execute_terminal]
      exact ht
    refine ⟨hterm, by simp [callerView, hterm], ?_, execute_closeCount t steps⟩
    rw [dispatched_execute]
    exact hd

/-- Witness for C6: a sequence whose first entry is malformed makes the run fail
with the ValueError message, observable by the caller, with the session closed. -/
theorem C6_raise_iff_malformed_reached_witness :
    (execute (fun _ _ => TransportOutcome.ok "" "" 0) [Step.bad]).terminal
      = Terminal.failed "Invalid step in sequence."
    ∧ callerView (execute (fun _ _ => TransportOutcome.ok "" "" 0) [Step.bad])
      = some "Invalid step in sequence."
    ∧ closeCount (execute (fun _ _ => TransportOutcome.ok "" "" 0) [Step.bad]) = 1 := by
  obtain ⟨h1, h2, _, h4⟩ :=
    (C6_raise_iff_malformed_reached (fun _ _ => TransportOutcome.ok "" "" 0) [Step.bad]).2 0
      (by unfold ReachesBadAt; exact ⟨by simp, fun i hi => absurd hi (Nat.not_lt_zero i)⟩)
  exact ⟨h1, h2, h4⟩

/-- C7 counterexample: a reported result with nonempty, whitespace-only stderr and
exit status 0 produces no stderr report at all (neither severity): `_log_result`
gates the stderr block on the stripped string, so the claim's "nonempty stderr is
reported at informational severity" fails at this input. -/
theorem C7_whitespace_stderr_counterexample :
    (ExecutionResult.mk "d" "c" "" " " 0).stderr ≠ ""
    ∧ (ExecutionResult.mk "d" "c" "" " " 0).exit_status = 0
    ∧ ∀ e ∈ log_result (ExecutionResult.mk "d" "c" "" " " 0), isStderrMsg e.msg = false := by
  decide

/-- C7 (amended): for every result whose stderr is nonempty after stripping
leading and trailing whitespace, the stripped stderr is reported at informational
severity when the exit status is 0 and at error severity otherwise; stdout and
stderr blocks appear in the report only when the corresponding field is nonempty. -/
theorem C7_stderr_severity (r : ExecutionResult) :
    (pyStrip r.stderr ≠ "" → r.exit_status = 0 →
      LogEvent.mk Severity.info (LogMsg.stderrInformational (pyStrip r.stderr)) ∈ log_result r)
    ∧ (pyStrip r.stderr ≠ "" → r.exit_status ≠ 0 →
      LogEvent.mk Severity.error (LogMsg.stderrContent (pyStrip r.stderr)) ∈ log_result r)
    ∧ (∀ s, LogEvent.mk Severity.info (LogMsg.stdoutContent s) ∈ log_result r → r.stdout ≠ "")
    ∧ (∀ sev s, LogEvent.mk sev (LogMsg.stderrInformational s) ∈ log_result r → r.stderr ≠ "")
    ∧ (∀ sev s, LogEvent.mk sev (LogMsg.stderrContent s) ∈ log_result r → r.stderr ≠ "") := by
  refine ⟨?_, ?_, ?_, ?_, ?_⟩
  · intro hne h0
    by_cases ho : pyStrip r.stdout = "" <;> simp [log_result, hne, h0, ho]
  · intro hne h0
    by_cases ho : pyStrip r.stdout = "" <;> simp [log_result, hne, h0, ho]
  · intro s hmem hempty
    have hps : pyStrip r.stdout = "" := by rw [hempty]; exact pyStrip_empty
    by_cases he : pyStrip r.stderr = "" <;> by_cases hx : r.exit_status = 0 <;>
      simp [log_result, hps, he, hx] at hmem
  · intro sev s hmem hempty
    have hps : pyStrip r.stderr = "" := by rw [hempty]; exact pyStrip_empty
    by_cases ho : pyStrip r.stdout = "" <;>
      simp [log_result, hps, ho] at hmem
  · intro sev s hmem hempty
    have hps : pyStrip r.stderr = "" := by rw [hempty]; exact pyStrip_empty
    by_cases ho : pyStrip r.stdout = "" <;>
      simp [log_result, hps, ho] at hmem

/-- Witness for C7: a successful result with stderr ` diagnostic ` gets an
informational stderr report carrying the stripped content. -/
theorem C7_stderr_severity_witness :
    LogEvent.mk Severity.info (LogMsg.stderrInformational (pyStrip " diagnostic "))
      ∈ log_result (ExecutionResult.mk "d" "c" "" " diagnostic " 0) :=
  (C7_stderr_severity (ExecutionResult.mk "d" "c" "" " diagnostic " 0)).1 (by decide) rfl

/-- C8 counterexample: a completed run and an aborted run give the caller exactly
the same observable return (a normal return of `None`), so the caller cannot
distinguish the three terminal outcomes from what `execute` returns or raises. -/
theorem C8_return_counterexample :
    (execute (fun _ _ => TransportOutcome.ok "" "" 0) []).terminal = Terminal.completed
    ∧ (execute (fun _ _ => TransportOutcome.ok "" "" 1)
        [Step.cmd (Command.mk "ls" "" none)]).terminal = Terminal.aborted
    ∧ callerView (execute (fun _ _ => TransportOutcome.ok "" "" 0) [])
      = callerView (execute (fun _ _ => TransportOutcome.ok "" "" 1)
          [Step.cmd (Command.mk "ls" "" none)]) := by
  decide

/-- C8 (amended): `execute` has no return value (Python `-> None`): it returns
normally exactly when the run ends `completed` or `aborted` (these two are not
distinguishable from the return), and it signals `failed` by raising, with the
exception message as the only caller-visible datum; per-command results are
surfaced only via the reporting events. -/
theorem C8_terminal_signalling (t : Transport) (steps : List Step) :
    (callerView (execute t steps) = none ↔
      ((execute t steps).terminal = Terminal.completed
        ∨ (execute t steps).terminal = Terminal.aborted))
    ∧ ∀ m, callerView (execute t steps) = some m ↔
        (execute t steps).terminal = Terminal.failed m := by
  cases h : (execute t steps).terminal <;> simp [callerView, h]

/-- C9: the description field of an executed command's result equals the command's
description when a nonempty one was provided and defaults to the command text when
it is absent (the Python default is the empty string, and the code uses
`command.description or command.command`); the description affects neither the
built command string nor the exit status driving the abort decision. -/
theorem C9_description_reporting_only (t : Transport) (k : Nat) (c : Command) :
    (c.description ≠ "" → (run_command t k c).description = c.description)
    ∧ (c.description = "" → (run_command t k c).description = c.command)
    ∧ (∀ d, (Command.mk c.command d c.directory).build = c.build)
    ∧ ∀ d, (run_command t k (Command.mk c.command d c.directory)).exit_status
        = (run_command t k c).exit_status := by
  have hbuild : ∀ d, (Command.mk c.command d c.directory).build = c.build := by
    intro d
    rfl
  refine ⟨?_, ?_, hbuild, ?_⟩
  · intro hne
    cases htk : t k c.build <;> simp [run_command, hne, htk]
  · intro he
    cases htk : t k c.build <;> simp [run_command, he, htk]
  · intro d
    have hb := hbuild d
    cases htk : t k c.build <;> simp [run_command, hb, htk]

/-- Witness for C9: a command with description `Show files.` reports that
description. -/
theorem C9_description_reporting_only_witness :
    (run_command (fun _ _ => TransportOutcome.ok "" "" 0) 0
        (Command.mk "ls" "Show files." none)).description = "Show files." :=
  (C9_description_reporting_only (fun _ _ => TransportOutcome.ok "" "" 0) 0
      (Command.mk "ls" "Show files." none)).1 (by decide)
